import Mathlib

/-!
# Verification of the rataura2 agent-transition core

A shallow embedding, in Lean 4, of the transition engine of the rataura2
repository: the graph manager's condition checking and priority-sorted
transition scan (`rataura2/graph/manager.py`), the Business-Rules adapter
(`rataura2/transitions/business_rules_adapter.py` and
`rataura2/graph/business_rules_integration.py`), the session context with
TTL expiry (`rataura2/orchestration/context.py`), the event handlers and
event manager (`rataura2/livekit_agent/events.py`), and the orchestrator
and session manager (`rataura2/orchestration/orchestrator.py`).

Python dictionaries are modelled as association lists with at most one
binding per key (the invariant Python dicts maintain); dynamic values are
modelled by the first-order value types the composed system actually
stores at each position.  Machine floats used as timestamps are modelled
as integers (only their ordering matters to the embedded code).
-/

namespace Rataura2

/-- Scalar Python values occurring in the embedded data (strings, ints,
booleans, `None`). -/
inductive Prim where
  | s (v : String)
  | i (v : Int)
  | b (v : Bool)
  | null
deriving DecidableEq, Repr

/-- One-level structured Python values: a scalar, a flat dict of scalars,
or a flat list of scalars.  This covers the values the repository stores
in event-`data` dicts and tool results. -/
inductive Val where
  | prim (p : Prim)
  | dict (d : List (String × Prim))
  | list (l : List Prim)
deriving DecidableEq, Repr

/-- Association-list lookup, the model of Python `d[k]` / `d.get(k)`
for dicts with at most one binding per key. -/
def alookup {α : Type} (d : List (String × α)) (k : String) : Option α :=
  match d with
  | [] => none
  | (k', v) :: rest => if k' = k then some v else alookup rest k

/-- Association-list insertion, the model of Python `d[k] = v`: replaces
the existing binding in place, otherwise appends. -/
def ainsert {α : Type} (d : List (String × α)) (k : String) (v : α) :
    List (String × α) :=
  match d with
  | [] => [(k, v)]
  | (k', v') :: rest =>
      if k' = k then (k, v) :: rest else (k', v') :: ainsert rest k v

/-- Association-list deletion, the model of Python `del d[k]`. -/
def aremove {α : Type} (d : List (String × α)) (k : String) :
    List (String × α) :=
  match d with
  | [] => []
  | (k', v') :: rest =>
      if k' = k then rest else (k', v') :: aremove rest k

/-- Case-sensitive substring test on character lists, the model of the
Python `needle in haystack` test on strings. -/
def strContains (haystack needle : String) : Bool :=
  (List.range (haystack.data.length + 1)).any
    (fun i => needle.data.isPrefixOf (haystack.data.drop i))

/-- Lower-casing of one character (ASCII letters; the model of Python
`str.lower()` over the ASCII strings the embedding works with). -/
def lowerChar (c : Char) : Char :=
  if 'A' ≤ c ∧ c ≤ 'Z' then Char.ofNat (c.toNat + 32) else c

/-- `s.lower()` on ASCII strings. -/
def strLower (s : String) : String :=
  ⟨s.data.map lowerChar⟩

/-- Generic association-list lookup for keys of any decidable type
(Python dict keys may be ints or strings here). -/
def lookupBy {κ α : Type} [DecidableEq κ] (d : List (κ × α)) (k : κ) :
    Option α :=
  match d with
  | [] => none
  | (k', v) :: rest => if k' = k then some v else lookupBy rest k

/-- Generic association-list insert/replace (`d[k] = v`). -/
def insertBy {κ α : Type} [DecidableEq κ] (d : List (κ × α)) (k : κ) (v : α) :
    List (κ × α) :=
  match d with
  | [] => [(k, v)]
  | (k', v') :: rest =>
      if k' = k then (k, v) :: rest else (k', v') :: insertBy rest k v

/-- Python truthiness for scalar values (`None`, `False`, `0`, `""` are
falsy). -/
def Prim.falsy : Prim → Bool
  | .null => true
  | .b v => !v
  | .i v => v == 0
  | .s v => v == ""

/-- Python truthiness for one-level values (empty dict and list are
falsy). -/
def Val.falsy : Val → Bool
  | .prim p => p.falsy
  | .dict d => d.isEmpty
  | .list l => l.isEmpty

/-- A record stored in `context["events"]` by `EventHandler.handle_event`:
a dict with exactly the keys `type`, `timestamp`, `data`, `source`
(events.py lines 89-94). -/
structure StoredEvent where
  type : String
  timestamp : Int
  data : List (String × Val)
  source : String
deriving DecidableEq, Repr

/-- A value read out of a stored event record by key: either one of the
scalar fields or the whole `data` dict.  Used to model the Python
comparison `event[key] != value` in the event-condition check. -/
inductive EField where
  | p (x : Prim)
  | d (entries : List (String × Val))
deriving DecidableEq, Repr

/-- `event[key]` on a stored event record, as an optional value
(`none` models `key not in event`). -/
def StoredEvent.lookup (e : StoredEvent) (k : String) : Option EField :=
  if k = "type" then some (.p (.s e.type))
  else if k = "timestamp" then some (.p (.i e.timestamp))
  else if k = "data" then some (.d e.data)
  else if k = "source" then some (.p (.s e.source))
  else none

/-- A value of `context["tool_results"][name]`: either a dict of results
keyed by result key (the shape `AgentGraphManager._check_condition`
indexes) or the list of appended results that
`AgentEventHandler._handle_tool_result` maintains. -/
inductive ToolEntry where
  | d (entries : List (String × Prim))
  | results (xs : List Val)
deriving DecidableEq, Repr

/-- One entry of `context["conversation"]` (events.py lines 363-367 and
394-399). -/
structure ConvMsg where
  role : String
  content : Val
  timestamp : Int
  agent_id : Option Val
deriving DecidableEq, Repr

/-- One entry of `context["session"]["participants"]` (events.py lines
233-237; `active`/`left_at` are added by `_handle_user_left`). -/
structure Participant where
  id : Val
  name : Val
  joined_at : Int
  active : Option Bool
  left_at : Option Int
deriving DecidableEq, Repr

/-- The `context["session"]` dict (events.py lines 203-208). -/
structure SessionRec where
  id : Val
  created_at : Int
  active : Bool
  participants : Option (List Participant)
  ended_at : Option Int
deriving DecidableEq, Repr

/-- One entry of an agent's `messages` list (events.py lines 406-409). -/
structure AgentMsg where
  content : Val
  timestamp : Int
deriving DecidableEq, Repr

/-- One entry of an agent's `tools` list (events.py lines 429-434;
`result`/`completed_at` are added by `_handle_tool_result`). -/
structure ToolCall where
  name : Val
  input : Val
  timestamp : Int
  status : String
  result : Option Val
  completed_at : Option Int
deriving DecidableEq, Repr

/-- One entry of `context["agents"]` (events.py lines 299-306; `errors`
is added lazily by `_handle_agent_error`). -/
structure AgentRec where
  id : Val
  name : Val
  started_at : Int
  active : Bool
  stopped_at : Option Int
  messages : Option (List AgentMsg)
  tools : Option (List ToolCall)
  errors : Option (List (Int × Val))
deriving DecidableEq, Repr

/-- The conversation context dict shared by the event handlers, the graph
manager and the orchestrator.  Each field models one key the embedded
code reads or writes; `Option` distinguishes an absent key (the code
performs `key in context` membership tests).  `extra` holds the remaining
string-valued keys (in particular keys written through
`context.update(...)` by the Business-Rules integration). -/
structure Ctx where
  user_input : Option Val := none
  tool_results : Option (List (Val × ToolEntry)) := none
  agent_decisions : Option (List (String × Prim)) := none
  events : Option (List StoredEvent) := none
  current_agent_id : Option Val := none
  current_agent_name : Option Val := none
  previous_agent_id : Option Val := none
  turn_count : Option Int := none
  conversation : Option (List ConvMsg) := none
  session : Option SessionRec := none
  agents : Option (List (Val × AgentRec)) := none
  last_tool_name : Option Val := none
  last_tool_input : Option Val := none
  last_tool_result : Option Val := none
  current_agent_type : Option Val := none
  user_input_type : Option Val := none
  extra : List (String × Prim) := []
deriving DecidableEq, Repr

/-- An event as passed to the handlers (`EventData` in events.py; the
enum event type is a `str` enum so it is modelled as its string value,
and the float timestamp as an integer). -/
structure EventData where
  type : String
  timestamp : Int
  data : List (String × Val)
  source : String
deriving DecidableEq, Repr

/-- The dict appended to `context["events"]` for an event (events.py
lines 89-94). -/
def eventRecord (e : EventData) : StoredEvent :=
  { type := e.type, timestamp := e.timestamp, data := e.data,
    source := e.source }

/-- The last `n` elements of a list: Python `l[-n:]`. -/
def takeLast {α : Type} (n : Nat) (l : List α) : List α :=
  l.drop (l.length - n)

/-- Append one event record and truncate to the 100 most recent
(events.py lines 89-97). -/
def appendCapped (events : List StoredEvent) (e : StoredEvent) :
    List StoredEvent :=
  takeLast 100 (events ++ [e])

/-! ## Transition conditions (`AgentGraphManager._check_condition`) -/

/-- A transition's condition: the `condition_type` discriminator together
with the fields `_check_condition` reads from `condition_data`
(`.get` defaults already applied where the code supplies them:
`operator` defaults to `"eq"`, `decision_key` to `"transition_to"`,
`event_data` to `{}`; an absent `expected_value` is Python `None`,
modelled as `Prim.null`).  `business_rules` conditions carry their rule
set in a separate table and fall through every branch of
`_check_condition`. -/
inductive Cond where
  | tool_result (tool_id : String) (result_key : String) (expected : Prim)
      (op : String)
  | user_input (pattern : Option String)
  | agent_decision (decision_key : String) (expected : Prim)
  | event (event_type : Option String) (event_data : List (String × EField))
  | custom (condition_code : Option String)
  | business_rules
deriving DecidableEq, Repr

/-- Python `actual > expected` on scalars: defined for number/number
(booleans count as 0/1) and string/string; any other combination raises
`TypeError`. -/
def primGt : Prim → Prim → Except Unit Bool
  | .i a, .i b => .ok (b < a)
  | .i a, .b b => .ok ((if b then (1 : Int) else 0) < a)
  | .b a, .i b => .ok (b < (if a then (1 : Int) else 0))
  | .b a, .b b => .ok ((if b then (1 : Int) else 0) < (if a then 1 else 0))
  | .s a, .s b => .ok (b < a)
  | _, _ => .error ()

/-- Python `actual < expected` on scalars (same domain as `primGt`). -/
def primLt : Prim → Prim → Except Unit Bool
  | .i a, .i b => .ok (a < b)
  | .i a, .b b => .ok (a < (if b then (1 : Int) else 0))
  | .b a, .i b => .ok ((if a then (1 : Int) else 0) < b)
  | .b a, .b b => .ok ((if a then (1 : Int) else 0) < (if b then 1 else 0))
  | .s a, .s b => .ok (a < b)
  | _, _ => .error ()

/-- Python `expected in actual` on scalars: substring test when both are
strings, `TypeError` otherwise. -/
def primContains (actual expected : Prim) : Except Unit Bool :=
  match actual, expected with
  | .s h, .s n => .ok (strContains h n)
  | _, _ => .error ()

/-- The operator dispatch of the `tool_result` branch (manager.py lines
179-190); an unrecognized operator falls through to the final
`return False`. -/
def compareToolResult (actual expected : Prim) (op : String) :
    Except Unit Bool :=
  if op = "eq" then .ok (actual == expected)
  else if op = "neq" then .ok (actual != expected)
  else if op = "gt" then primGt actual expected
  else if op = "lt" then primLt actual expected
  else if op = "contains" then primContains actual expected
  else if op = "not_contains" then (primContains actual expected).map (!·)
  else .ok false

/-- `result_key in result` where `result` is a tool-results entry:
key membership for a dict entry, element membership for a list entry. -/
def toolEntryHasKey (entry : ToolEntry) (key : String) : Bool :=
  match entry with
  | .d entries => (alookup entries key).isSome
  | .results xs => xs.contains (.prim (.s key))

/-- `result[result_key]`: indexing a dict entry yields its value;
indexing a list entry with a string raises `TypeError`. -/
def toolEntryIndex (entry : ToolEntry) (key : String) : Except Unit Prim :=
  match entry with
  | .d entries =>
      match alookup entries key with
      | some v => .ok v
      | none => .error ()
  | .results _ => .error ()

/-- One stored event against the condition's `event_type`/`event_data`
(manager.py lines 226-238): the type must be equal and every key/value
pair of `event_data` must occur in the event record itself (`key not in
event or event[key] != value`).  Note the superset test is on the
top-level record keys, not on the record's `data` dict. -/
def eventMatches (eventType : Option String)
    (eventData : List (String × EField)) (e : StoredEvent) : Bool :=
  eventType == some e.type &&
    eventData.all (fun kv => e.lookup kv.1 == some kv.2)

/-- `AgentGraphManager._check_condition` (manager.py lines 145-253).
`Except.error` models a raised Python exception (e.g. `TypeError` from a
comparison or indexing on an incompatible value, `AttributeError` from
`.lower()` on a non-string user input); such exceptions propagate out of
`check_transitions` uncaught. -/
def checkCondition (c : Cond) (ctx : Ctx) : Except Unit Bool :=
  match c with
  | .tool_result tool_id result_key expected op =>
      match ctx.tool_results with
      | none => .ok false
      | some tool_results =>
          match lookupBy tool_results (.prim (.s tool_id)) with
          | none => .ok false
          | some entry =>
              if toolEntryHasKey entry result_key then
                (toolEntryIndex entry result_key).bind
                  (fun actual => compareToolResult actual expected op)
              else .ok false
  | .user_input pattern =>
      match pattern with
      | none => .ok false
      | some pat =>
          if pat = "" then .ok false
          else
            match ctx.user_input with
            | none => .ok false
            | some (.prim (.s input)) =>
                .ok (strContains (strLower input) (strLower pat))
            | some _ => .error ()
  | .agent_decision decision_key expected =>
      match ctx.agent_decisions with
      | none => .ok false
      | some decisions =>
          match alookup decisions decision_key with
          | none => .ok false
          | some actual => .ok (actual == expected)
  | .event event_type event_data =>
      match ctx.events with
      | none => .ok false
      | some events => .ok (events.any (eventMatches event_type event_data))
  | .custom condition_code =>
      match condition_code with
      | none => .ok false
      | some code => if code = "" then .ok false else .ok false
  | .business_rules => .ok false

/-! ## The transition graph (`AgentGraphManager`) -/

/-- A row of the `Transition` table as read in `_build_graph`
(the fields carried onto the graph edge). -/
structure TransitionRow where
  id : Int
  source_agent_id : Int
  target_agent_id : Int
  condition : Cond
  priority : Int
deriving DecidableEq, Repr

/-- `networkx.DiGraph.add_edge`: at most one edge per (source, target)
pair; re-adding replaces the edge data but keeps the adjacency position
of the first insertion. -/
def addEdge (edges : List TransitionRow) (row : TransitionRow) :
    List TransitionRow :=
  match edges with
  | [] => [row]
  | r :: rest =>
      if r.source_agent_id = row.source_agent_id ∧
         r.target_agent_id = row.target_agent_id then
        row :: rest
      else r :: addEdge rest row

/-- The in-memory graph built by `AgentGraphManager._build_graph`:
agent nodes (with their names) and the edge list in networkx adjacency
order. -/
structure AgentGraph where
  agentNames : List (Int × String)
  edges : List TransitionRow
deriving DecidableEq, Repr

/-- `_build_graph` (manager.py lines 37-80): nodes are the conversation's
agents; edges are the transitions whose two endpoints are both members,
added in the order the rows arrive. -/
def buildGraph (agents : List (Int × String)) (rows : List TransitionRow) :
    AgentGraph :=
  { agentNames := agents,
    edges :=
      (rows.filter (fun r =>
        (agents.map Prod.fst).contains r.source_agent_id &&
        (agents.map Prod.fst).contains r.target_agent_id)).foldl addEdge [] }

/-- The out-edges of an agent in adjacency (insertion) order. -/
def outEdges (g : AgentGraph) (a : Int) : List TransitionRow :=
  g.edges.filter (fun r => r.source_agent_id == a)

/-- The transition dict built for one out-edge (manager.py lines
109-118). -/
structure TransitionRec where
  id : Int
  target_agent_id : Int
  target_agent_name : String
  condition : Cond
  priority : Int
deriving DecidableEq, Repr

/-- One out-edge as the dict `get_agent_transitions` builds for it. -/
def toRec (g : AgentGraph) (row : TransitionRow) : TransitionRec :=
  { id := row.id, target_agent_id := row.target_agent_id,
    target_agent_name := (lookupBy g.agentNames row.target_agent_id).getD "",
    condition := row.condition, priority := row.priority }

/-- Stable insertion for a descending sort by an integer key: the new
element goes after every element of key ≥ its own, which reproduces
Python's stable `sorted(..., reverse=True)`. -/
def insertDescBy {α : Type} (pr : α → Int) (t : α) : List α → List α
  | [] => [t]
  | h :: rest =>
      if pr h < pr t then t :: h :: rest
      else h :: insertDescBy pr t rest

/-- Stable sort by an integer key, descending (the model of Python
`sorted(xs, key=pr, reverse=True)`). -/
def sortDescBy {α : Type} (pr : α → Int) (ts : List α) : List α :=
  ts.foldl (fun acc t => insertDescBy pr t acc) []

/-- Stable sort by priority descending (`sorted(transitions,
key=lambda x: x["priority"], reverse=True)`, manager.py line 121). -/
def sortByPriorityDesc (ts : List TransitionRec) : List TransitionRec :=
  sortDescBy (·.priority) ts

/-- `AgentGraphManager.get_agent_transitions` (manager.py lines 94-121):
raises `ValueError` (modelled as `Except.error`) when the agent is not a
node, otherwise the out-edge dicts sorted by priority descending. -/
def getAgentTransitions (g : AgentGraph) (a : Int) :
    Except Unit (List TransitionRec) :=
  if (g.agentNames.map Prod.fst).contains a then
    .ok (sortByPriorityDesc ((outEdges g a).map (toRec g)))
  else .error ()

/-- The scan of `check_transitions` (manager.py lines 136-143): the first
transition whose condition check returns true gives the target; a raised
exception propagates. -/
def firstMatch (ts : List TransitionRec) (ctx : Ctx) :
    Except Unit (Option Int) :=
  match ts with
  | [] => .ok none
  | t :: rest =>
      match checkCondition t.condition ctx with
      | .error e => .error e
      | .ok true => .ok (some t.target_agent_id)
      | .ok false => firstMatch rest ctx

/-- `AgentGraphManager.check_transitions` (manager.py lines 123-143). -/
def checkTransitions (g : AgentGraph) (a : Int) (ctx : Ctx) :
    Except Unit (Option Int) :=
  (getAgentTransitions g a).bind (fun ts => firstMatch ts ctx)

/-! ## The Business-Rules adapter
(`rataura2/transitions/business_rules_adapter.py` and
`rataura2/graph/business_rules_integration.py`).

The `business_rules` rule engine itself is an external dependency, so its
evaluation loop and operator semantics follow the spec's description of
it (§4.3 and the persisted wire format of §6); the variable set, the
action set and the controller state threading are embedded from the
repository's adapter code. -/

/-- A rule variable's typed value (one per `*_rule_variable` kind used by
`ConversationVariables`). -/
inductive VarVal where
  | str (s : String)
  | num (n : Int)
  | bool (b : Bool)
  | select (s : String)
deriving DecidableEq, Repr

/-- A rendering of a one-level value as a JSON string: the model of the
`json.dumps(tool_result)` in `ConversationVariables.last_tool_result`. -/
def primToJson : Prim → String
  | .s v => "\"" ++ v ++ "\""
  | .i v => toString v
  | .b true => "true"
  | .b false => "false"
  | .null => "null"

/-- JSON rendering of a one-level value (see `primToJson`). -/
def valToJson : Val → String
  | .prim p => primToJson p
  | .dict d =>
      "\x7b" ++ String.intercalate ", "
        (d.map (fun kv => "\"" ++ kv.1 ++ "\": " ++ primToJson kv.2)) ++ "\x7d"
  | .list l =>
      "[" ++ String.intercalate ", " (l.map primToJson) ++ "]"

/-- `str(x)` for the non-dict fallback of `last_tool_result`. -/
def valToStr : Val → String
  | .prim (.s v) => v
  | .prim (.i v) => toString v
  | .prim (.b true) => "True"
  | .prim (.b false) => "False"
  | .prim .null => "None"
  | v => valToJson v

/-- A context value read back as a string with a default, as the
string-typed rule variables do via `context.get(key, default)`; a
non-string value at the key is outside the embedding's domain
(`Except.error`). -/
def ctxStrD (v : Option Val) (default : String) : Except Unit String :=
  match v with
  | none => .ok default
  | some (.prim (.s s)) => .ok s
  | some _ => .error ()

/-- `context.get(key, "")` read back as a string. -/
def ctxStr (v : Option Val) : Except Unit String :=
  ctxStrD v ""

/-- `ConversationVariables` (business_rules_adapter.py lines 59-158): the
named rule variables over the conversation context.  An unknown variable
name is an error of the rule engine (`Except.error`). -/
def convVars (ctx : Ctx) (name : String) : Except Unit VarVal :=
  if name = "user_input" then (ctxStr ctx.user_input).map .str
  else if name = "current_agent_name" then
    (ctxStr ctx.current_agent_name).map .str
  else if name = "current_agent_type" then
    (ctxStr ctx.current_agent_type).map .str
  else if name = "conversation_turn_count" then
    .ok (.num (ctx.turn_count.getD 0))
  else if name = "is_first_turn" then
    .ok (.bool (decide (ctx.turn_count.getD 0 ≤ 1)))
  else if name = "user_input_type" then
    (ctxStrD ctx.user_input_type "unknown").map .select
  else if name = "last_tool_name" then (ctxStr ctx.last_tool_name).map .str
  else if name = "last_tool_result" then
    .ok (.str (match ctx.last_tool_result with
      | some (.dict d) => valToJson (.dict d)
      | some v => valToStr v
      | none => valToJson (.dict [])))
  else .error ()

/-- Modelled from the spec: the operator semantics of the external
`business_rules` engine on one condition leaf (§4.3 lists the operator
set per variable type).  A type-mismatched comparison value or an unknown
operator is a `ConfigurationError` (`Except.error`); `matches_regex` is
not covered by the embedding and is treated as outside its domain. -/
def evalLeaf (v : VarVal) (op : String) (value : Prim) : Except Unit Bool :=
  match v with
  | .str s =>
      if op = "equal_to" then
        match value with | .s w => .ok (s == w) | _ => .error ()
      else if op = "not_equal_to" then
        match value with | .s w => .ok (s != w) | _ => .error ()
      else if op = "contains" then
        match value with | .s w => .ok (strContains s w) | _ => .error ()
      else if op = "does_not_contain" then
        match value with | .s w => .ok (!strContains s w) | _ => .error ()
      else if op = "is_empty" then .ok (s == "")
      else if op = "is_not_empty" then .ok (s != "")
      else .error ()
  | .num n =>
      if op = "equal_to" then
        match value with | .i m => .ok (n == m) | _ => .error ()
      else if op = "not_equal_to" then
        match value with | .i m => .ok (n != m) | _ => .error ()
      else if op = "greater_than" then
        match value with | .i m => .ok (decide (m < n)) | _ => .error ()
      else if op = "less_than" then
        match value with | .i m => .ok (decide (n < m)) | _ => .error ()
      else if op = "greater_than_or_equal_to" then
        match value with | .i m => .ok (decide (m ≤ n)) | _ => .error ()
      else if op = "less_than_or_equal_to" then
        match value with | .i m => .ok (decide (n ≤ m)) | _ => .error ()
      else .error ()
  | .bool b =>
      if op = "is_true" then .ok b
      else if op = "is_false" then .ok (!b)
      else .error ()
  | .select s =>
      if op = "equal_to" then
        match value with | .s w => .ok (s == w) | _ => .error ()
      else if op = "not_equal_to" then
        match value with | .s w => .ok (s != w) | _ => .error ()
      else .error ()

/-- One leaf of a rule's conditions in the persisted wire format
(`{"name", "operator", "value"}`, spec §6). -/
structure RLeaf where
  name : String
  operator : String
  value : Prim
deriving DecidableEq, Repr

/-- Modelled from the spec: a rule's conditions in the persisted wire
format (`{"all": [...]}` or `{"any": [...]}` over leaves, spec §6);
`all` of an empty list is true, `any` of an empty list is false
(§4.3). -/
inductive RConds where
  | all (ls : List RLeaf)
  | any (ls : List RLeaf)
deriving DecidableEq, Repr

/-- Short-circuit conjunction over fallible leaf evaluations. -/
def evalAllLeaves (vars : String → Except Unit VarVal) :
    List RLeaf → Except Unit Bool
  | [] => .ok true
  | l :: rest =>
      ((vars l.name).bind (fun v => evalLeaf v l.operator l.value)).bind
        (fun b => if b then evalAllLeaves vars rest else .ok false)

/-- Short-circuit disjunction over fallible leaf evaluations. -/
def evalAnyLeaves (vars : String → Except Unit VarVal) :
    List RLeaf → Except Unit Bool
  | [] => .ok false
  | l :: rest =>
      ((vars l.name).bind (fun v => evalLeaf v l.operator l.value)).bind
        (fun b => if b then .ok true else evalAnyLeaves vars rest)

/-- Modelled from the spec: evaluation of a rule's condition combinator
(§4.3). -/
def evalRConds (vars : String → Except Unit VarVal) : RConds →
    Except Unit Bool
  | .all ls => evalAllLeaves vars ls
  | .any ls => evalAnyLeaves vars ls

/-- The actions registered on `TransitionActions`
(business_rules_adapter.py lines 210-234): exactly the three
`rule_action`-decorated methods. -/
inductive RAction where
  | transition_to_agent (agent_id : Int)
  | set_context_value (key value : String)
  | log_transition
deriving DecidableEq, Repr

/-- One rule of a rule set: a condition combinator and an ordered action
list (wire format of spec §6). -/
structure Rule where
  conditions : RConds
  actions : List RAction
deriving DecidableEq, Repr

/-- The mutable state of a `TransitionController`
(business_rules_adapter.py lines 245-254): the recorded next agent id and
the accumulated context updates. -/
structure ControllerState where
  next_agent_id : Option Int := none
  context_updates : List (String × Prim) := []
deriving DecidableEq, Repr

/-- One action applied to the controller state
(`TransitionActions.transition_to_agent` calls
`TransitionController.set_next_agent_id`, which assigns
`self.next_agent_id = agent_id` unconditionally;
`set_context_value` writes `self.context_updates[key] = value`;
`log_transition` only logs). -/
def execAction (st : ControllerState) : RAction → ControllerState
  | .transition_to_agent aid => { st with next_agent_id := some aid }
  | .set_context_value k v =>
      { st with context_updates := ainsert st.context_updates k (.s v) }
  | .log_transition => st

/-- A triggered rule's actions executed in order (spec §4.3: "execute the
rule's actions in order"). -/
def execActions (st : ControllerState) (as' : List RAction) :
    ControllerState :=
  as'.foldl execAction st

/-- Modelled from the spec: the external engine's `run_all` with
`stop_on_first_trigger=True` (§4.3): iterate rules in stored order,
execute the first satisfied rule's actions and stop; an evaluation error
propagates. -/
def runAll (vars : String → Except Unit VarVal) (rules : List Rule)
    (st : ControllerState) : Except Unit ControllerState :=
  match rules with
  | [] => .ok st
  | r :: rest =>
      match evalRConds vars r.conditions with
      | .error e => .error e
      | .ok true => .ok (execActions st r.actions)
      | .ok false => runAll vars rest st

/-- The loop body of `TransitionController.check_transitions`
(business_rules_adapter.py lines 312-334): iterate the agent's
`business_rules` transitions in priority order, threading the controller
state (the controller is reset once, before the loop, not between
transitions); return as soon as a run records a next agent.  A raised
engine error propagates (`Except.error`). -/
def controllerLoop (vars : String → Except Unit VarVal)
    (rulesTable : List (Int × List Rule)) (st : ControllerState) :
    List TransitionRow → Except Unit (Option (Int × List (String × Prim)))
  | [] => .ok none
  | t :: rest =>
      match lookupBy rulesTable t.id with
      | none => controllerLoop vars rulesTable st rest
      | some rules =>
          match runAll vars rules st with
          | .error e => .error e
          | .ok st' =>
              match st'.next_agent_id with
              | some next => .ok (some (next, st'.context_updates))
              | none => controllerLoop vars rulesTable st' rest

/-- `TransitionController.check_transitions`
(business_rules_adapter.py lines 280-334): the `business_rules`-kind
rows of the `Transition` table with source `agent`, sorted by priority
descending (stable), each run through the engine; `none` models the
empty-dict "no transition" result. -/
def controllerCheckTransitions (transitionTable : List TransitionRow)
    (rulesTable : List (Int × List Rule)) (agent : Int)
    (vars : String → Except Unit VarVal) :
    Except Unit (Option (Int × List (String × Prim))) :=
  let ts := transitionTable.filter (fun t =>
    t.source_agent_id == agent && t.condition == Cond.business_rules)
  if ts.isEmpty then .ok none
  else
    controllerLoop vars rulesTable {} (sortDescBy (·.priority) ts)

/-- One key written into the context dict by `context.update(...)` or
`context[key] = value` for a scalar value.  Keys whose typed model field
cannot hold a scalar of this shape are modelled in `extra`. -/
def setCtxKey (ctx : Ctx) (k : String) (v : Prim) : Ctx :=
  if k = "user_input" then { ctx with user_input := some (.prim v) }
  else if k = "current_agent_id" then
    { ctx with current_agent_id := some (.prim v) }
  else if k = "current_agent_name" then
    { ctx with current_agent_name := some (.prim v) }
  else if k = "previous_agent_id" then
    { ctx with previous_agent_id := some (.prim v) }
  else if k = "current_agent_type" then
    { ctx with current_agent_type := some (.prim v) }
  else if k = "user_input_type" then
    { ctx with user_input_type := some (.prim v) }
  else if k = "last_tool_name" then
    { ctx with last_tool_name := some (.prim v) }
  else { ctx with extra := ainsert ctx.extra k v }

/-- `context.update(updates)` for the scalar-valued update dict a
Business-Rules run produces. -/
def applyUpdates (ctx : Ctx) (updates : List (String × Prim)) : Ctx :=
  updates.foldl (fun c kv => setCtxKey c kv.1 kv.2) ctx

/-- `BusinessRulesAgentGraphManager.check_transitions`
(business_rules_integration.py lines 20-46): ask the
`TransitionController` first; on a result, apply its context updates
(only when non-empty: `if "context_updates" in result and
result["context_updates"]`) and return its target; otherwise fall back to
the base implementation.  Returns the chosen target together with the
context as mutated by the call. -/
def brCheckTransitions (g : AgentGraph) (transitionTable : List TransitionRow)
    (rulesTable : List (Int × List Rule)) (agent : Int) (ctx : Ctx) :
    Except Unit (Option Int × Ctx) :=
  (controllerCheckTransitions transitionTable rulesTable agent
      (convVars ctx)).bind (fun res =>
    match res with
    | some (next, updates) =>
        let ctx' := if updates.isEmpty then ctx else applyUpdates ctx updates
        .ok (some next, ctx')
    | none => (checkTransitions g agent ctx).map (fun r => (r, ctx)))

/-! ## Event handlers and the event manager
(`rataura2/livekit_agent/events.py`).

Handler callbacks are modelled as total functions on the context;
`handle_event` catches and logs callback exceptions, so a callback that
would raise mid-way is modelled by the mutations it performs before the
raise. -/

/-- `event.data.get(key, default)`. -/
def dataGet (e : EventData) (k : String) (default : Val) : Val :=
  (alookup e.data k).getD default

/-- The `"unknown"` default several handlers use. -/
def unknownVal : Val := .prim (.s "unknown")

/-- `SessionEventHandler._handle_session_created` (events.py lines
194-208). -/
def sessionCreatedCb (e : EventData) (ctx : Ctx) : Ctx :=
  { ctx with session := some (
      { id := dataGet e "session_id" unknownVal,
        created_at := e.timestamp, active := true,
        participants := some [], ended_at := none : SessionRec }) }

/-- `SessionEventHandler._handle_session_ended` (events.py lines
210-221). -/
def sessionEndedCb (e : EventData) (ctx : Ctx) : Ctx :=
  match ctx.session with
  | none => ctx
  | some s =>
      { ctx with session := some (
          { s with active := false, ended_at := some e.timestamp }) }

/-- `SessionEventHandler._handle_user_joined` (events.py lines
223-242). -/
def userJoinedCb (e : EventData) (ctx : Ctx) : Ctx :=
  match ctx.session with
  | none => ctx
  | some s =>
      let p : Participant :=
        { id := dataGet e "participant_id" unknownVal,
          name := dataGet e "participant_name" unknownVal,
          joined_at := e.timestamp, active := none, left_at := none }
      { ctx with session := some (
          { s with participants := some (s.participants.getD [] ++ [p]) }) }

/-- Mark the first participant with the given id as having left
(the `break` after the first match in `_handle_user_left`). -/
def markLeft (pid : Val) (ts : Int) : List Participant → List Participant
  | [] => []
  | p :: rest =>
      if p.id == pid then
        { p with active := some false, left_at := some ts } :: rest
      else p :: markLeft pid ts rest

/-- `SessionEventHandler._handle_user_left` (events.py lines 244-260). -/
def userLeftCb (e : EventData) (ctx : Ctx) : Ctx :=
  match ctx.session with
  | none => ctx
  | some s =>
      match s.participants with
      | none => ctx
      | some ps =>
          let pid := dataGet e "participant_id" unknownVal
          { ctx with session := some (
              { s with participants := some (markLeft pid e.timestamp ps) }) }

/-- `AgentEventHandler._handle_agent_started` (events.py lines
284-310). -/
def agentStartedCb (e : EventData) (ctx : Ctx) : Ctx :=
  let aid := dataGet e "agent_id" unknownVal
  let aname := dataGet e "agent_name" unknownVal
  let recs := ctx.agents.getD []
  let r : AgentRec :=
    { id := aid, name := aname, started_at := e.timestamp, active := true,
      stopped_at := none, messages := some [], tools := some [],
      errors := none }
  { ctx with agents := some (insertBy recs aid r),
             current_agent_id := some aid,
             current_agent_name := some aname }

/-- `AgentEventHandler._handle_agent_stopped` (events.py lines
312-325). -/
def agentStoppedCb (e : EventData) (ctx : Ctx) : Ctx :=
  let aid := dataGet e "agent_id" unknownVal
  match ctx.agents with
  | none => ctx
  | some recs =>
      match lookupBy recs aid with
      | none => ctx
      | some r =>
          { ctx with agents := some (insertBy recs aid
              ({ r with active := false, stopped_at := some e.timestamp })) }

/-- `AgentEventHandler._handle_agent_error` (events.py lines 327-346). -/
def agentErrorCb (e : EventData) (ctx : Ctx) : Ctx :=
  let aid := dataGet e "agent_id" unknownVal
  let err := dataGet e "error" (.prim (.s "Unknown error"))
  match ctx.agents with
  | none => ctx
  | some recs =>
      match lookupBy recs aid with
      | none => ctx
      | some r =>
          let errs := some (r.errors.getD [] ++ [(e.timestamp, err)])
          { ctx with agents := some (insertBy recs aid
              ({ r with errors := errs })) }

/-- `AgentEventHandler._handle_user_message` (events.py lines 348-376). -/
def userMessageCb (e : EventData) (ctx : Ctx) : Ctx :=
  let msg := dataGet e "message" (.prim (.s ""))
  let conv := ctx.conversation.getD []
  { ctx with
      conversation := some (conv ++
        [({ role := "user", content := msg, timestamp := e.timestamp,
            agent_id := none : ConvMsg })]),
      user_input := some msg,
      turn_count := some (ctx.turn_count.getD 0 + 1) }

/-- `AgentEventHandler._handle_agent_message` (events.py lines
378-409). -/
def agentMessageCb (e : EventData) (ctx : Ctx) : Ctx :=
  let aid := dataGet e "agent_id" unknownVal
  let msg := dataGet e "message" (.prim (.s ""))
  let conv := ctx.conversation.getD []
  let ctx := { ctx with conversation := some (conv ++
    [({ role := "assistant", content := msg, timestamp := e.timestamp,
        agent_id := some aid : ConvMsg })]) }
  match ctx.agents with
  | none => ctx
  | some recs =>
      match lookupBy recs aid with
      | none => ctx
      | some r =>
          let msgs := some (r.messages.getD [] ++
            [({ content := msg, timestamp := e.timestamp : AgentMsg })])
          { ctx with agents := some (insertBy recs aid
              ({ r with messages := msgs })) }

/-- `AgentEventHandler._handle_tool_called` (events.py lines 411-440);
note `last_tool_name`/`last_tool_input` are only written inside the
agents branch. -/
def toolCalledCb (e : EventData) (ctx : Ctx) : Ctx :=
  let aid := dataGet e "agent_id" unknownVal
  let tname := dataGet e "tool_name" unknownVal
  let tinput := dataGet e "tool_input" (.dict [])
  match ctx.agents with
  | none => ctx
  | some recs =>
      match lookupBy recs aid with
      | none => ctx
      | some r =>
          let tc : ToolCall :=
            { name := tname, input := tinput, timestamp := e.timestamp,
              status := "called", result := none, completed_at := none }
          { ctx with
              agents := some (insertBy recs aid
                ({ r with tools := some (r.tools.getD [] ++ [tc]) })),
              last_tool_name := some tname,
              last_tool_input := some tinput }

/-- Update the most recent still-`called` tool call with the given name
(`reversed(...)` scan with `break`, events.py lines 459-464), expressed
on the reversed list. -/
def completeCalledRev (tname : Val) (res : Val) (ts : Int) :
    List ToolCall → List ToolCall
  | [] => []
  | tc :: rest =>
      if tc.name == tname && tc.status == "called" then
        { tc with result := some res, status := "completed",
                  completed_at := some ts } :: rest
      else tc :: completeCalledRev tname res ts rest

/-- `AgentEventHandler._handle_tool_result` (events.py lines 442-476):
first complete the matching tool call, then append to
`context["tool_results"][tool_name]` and set `last_tool_result` (an
append onto a dict-shaped entry raises `AttributeError`, swallowed by
`handle_event`, leaving the later mutations unapplied). -/
def toolResultCb (e : EventData) (ctx : Ctx) : Ctx :=
  let aid := dataGet e "agent_id" unknownVal
  let tname := dataGet e "tool_name" unknownVal
  let tres := dataGet e "tool_result" (.dict [])
  let ctx : Ctx :=
    match ctx.agents with
    | none => ctx
    | some recs =>
        match lookupBy recs aid with
        | none => ctx
        | some r =>
            match r.tools with
            | none => ctx
            | some tools =>
                let tools' := some
                  ((completeCalledRev tname tres e.timestamp
                    tools.reverse).reverse)
                { ctx with agents := some (insertBy recs aid
                    ({ r with tools := tools' })) }
  let tr := ctx.tool_results.getD []
  match lookupBy tr tname with
  | none =>
      { ctx with tool_results := some (insertBy tr tname (.results [tres])),
                 last_tool_result := some tres }
  | some (.results xs) =>
      { ctx with
          tool_results := some (insertBy tr tname (.results (xs ++ [tres]))),
          last_tool_result := some tres }
  | some (.d _) =>
      { ctx with tool_results := some tr }

/-- An event handler: its per-event-type callback registry
(`EventHandler.callbacks`). -/
structure Handler where
  callbacks : List (String × List (EventData → Ctx → Ctx))

/-- `EventHandler.handle_event` (events.py lines 76-105): append the
event record to `context["events"]` (creating the list if absent),
truncate to the last 100, then run the callbacks registered for the
event's type in order. -/
def handleEvent (h : Handler) (e : EventData) (ctx : Ctx) : Ctx :=
  let ctx := { ctx with
    events := some (appendCapped (ctx.events.getD []) (eventRecord e)) }
  match alookup h.callbacks e.type with
  | none => ctx
  | some cbs => cbs.foldl (fun c cb => cb e c) ctx

/-- `EventManager.process_event` (events.py lines 502-510): every
registered handler handles the event, in registration order. -/
def processEvent (handlers : List Handler) (e : EventData) (ctx : Ctx) :
    Ctx :=
  handlers.foldl (fun c h => handleEvent h e c) ctx

/-- `LivekitEventHandler` as constructed: no callbacks registered. -/
def livekitEventHandler : Handler := ⟨[]⟩

/-- `SessionEventHandler.__init__` (events.py lines 184-192): its four
session callbacks. -/
def sessionEventHandler : Handler :=
  ⟨[("session_created", [sessionCreatedCb]),
    ("session_ended", [sessionEndedCb]),
    ("user_joined", [userJoinedCb]),
    ("user_left", [userLeftCb])]⟩

/-- `AgentEventHandler.__init__` (events.py lines 271-282): its seven
agent callbacks. -/
def agentEventHandler : Handler :=
  ⟨[("agent_started", [agentStartedCb]),
    ("agent_stopped", [agentStoppedCb]),
    ("agent_error", [agentErrorCb]),
    ("user_message", [userMessageCb]),
    ("agent_message", [agentMessageCb]),
    ("tool_called", [toolCalledCb]),
    ("tool_result", [toolResultCb])]⟩

/-- The three handlers `AgentOrchestrator.__init__` registers
(orchestrator.py lines 82-84), in registration order. -/
def orchestratorHandlers : List Handler :=
  [livekitEventHandler, sessionEventHandler, agentEventHandler]

/-! ## The orchestrator (`rataura2/orchestration/orchestrator.py`).

`AgentOrchestrator` is modelled with its default configuration
(`use_business_rules=True`, so the graph manager is the
`BusinessRulesAgentGraphManager`).  The one step of `execute_transition`
that can raise for reasons outside the embedded data — the agent factory
call `controller._create_current_agent()` — is modelled by an explicit
failure oracle. -/

/-- `TransitionResult` (orchestrator.py lines 30-34). -/
inductive TransitionResult where
  | success
  | no_transition
  | error
deriving DecidableEq, Repr

/-- The orchestrator state the claims observe: the shared context dict
and the conversation controller's current agent id (also assigned during
`execute_transition`). -/
structure OrchState where
  ctx : Ctx
  controllerAgentId : Option Int
deriving DecidableEq, Repr

/-- `AgentOrchestrator.check_transition` (orchestrator.py lines 223-239):
read `current_agent_id` from the context (falsy ⇒ no check), then ask the
Business-Rules graph manager.  A non-integer current agent id reaches
`get_agent_transitions` as a node that is not in the graph, raising
`ValueError` (`Except.error`). -/
def checkTransition (g : AgentGraph) (transitionTable : List TransitionRow)
    (rulesTable : List (Int × List Rule)) (ctx : Ctx) :
    Except Unit (Option Int × Ctx) :=
  match ctx.current_agent_id with
  | none => .ok (none, ctx)
  | some v =>
      if v.falsy then .ok (none, ctx)
      else
        match v with
        | .prim (.i n) => brCheckTransitions g transitionTable rulesTable n ctx
        | _ => .error ()

/-- `AgentOrchestrator.execute_transition` (orchestrator.py lines
241-302).  The commit sequence is: write
`previous_agent_id`/`current_agent_id`/`current_agent_name` into the
context, process the internal transition event (type `custom`, appended
to the history by each of the three handlers), set the controller's
current agent id and context, then build the new agent
(`_create_current_agent`, which may raise).  The surrounding `try`
returns `ERROR` on any exception but performs no rollback. -/
def executeTransition (agentsTable : List (Int × String))
    (createAgentFails : Bool) (now : Int) (st : OrchState) (target : Int) :
    TransitionResult × OrchState :=
  let ctx := st.ctx
  match ctx.current_agent_id with
  | none => (.error, st)
  | some curV =>
      if curV.falsy then (.error, st)
      else if curV == Val.prim (.i target) then (.no_transition, st)
      else
        match lookupBy agentsTable target with
        | none => (.error, st)
        | some targetName =>
            let ctx1 := { ctx with
              previous_agent_id := some curV,
              current_agent_id := some (.prim (.i target)),
              current_agent_name := some (.prim (.s targetName)) }
            let ev : EventData :=
              { type := "custom", timestamp := now,
                data := [("previous_agent_id", curV),
                         ("target_agent_id", .prim (.i target)),
                         ("transition_type", .prim (.s "orchestrator"))],
                source := "orchestrator" }
            let ctx2 := processEvent orchestratorHandlers ev ctx1
            let st' : OrchState :=
              { ctx := ctx2, controllerAgentId := some target }
            if createAgentFails then (.error, st') else (.success, st')

/-- `AgentOrchestrator.check_and_execute_transition` (orchestrator.py
lines 304-318): check, then execute when a target was produced.  An
exception raised by the check itself propagates out of the method
(`Except.error`). -/
def checkAndExecuteTransition (g : AgentGraph)
    (transitionTable : List TransitionRow)
    (rulesTable : List (Int × List Rule)) (agentsTable : List (Int × String))
    (createAgentFails : Bool) (now : Int) (st : OrchState) :
    Except Unit (TransitionResult × OrchState) :=
  (checkTransition g transitionTable rulesTable st.ctx).map (fun res =>
    match res with
    | (none, ctx') => (.no_transition, { st with ctx := ctx' })
    | (some target, ctx') =>
        executeTransition agentsTable createAgentFails now
          { st with ctx := ctx' } target)

/-! ## The session manager (`SessionManager`, orchestrator.py lines
350-498).

`SessionManager.lock` is a non-reentrant `threading.Lock`; acquiring it
while it is already held by the same thread blocks that thread forever.
The lock is modelled as a held-flag, and a blocking acquisition as
`none`. -/

/-- Acquire a non-reentrant lock: succeeds when free, blocks forever
(`none`) when already held by the caller. -/
def acquireLock : Bool → Option Bool
  | false => some true
  | true => none

/-- `SessionManager.end_session` (orchestrator.py lines 421-457) with the
lock state explicit: enter `with self.lock`, then (if registered) process
the session-ended event, stop the orchestrator and delete the registry
entries, all while holding the lock.  `none` models blocking forever on
the lock. -/
def endSession (lockHeld : Bool) (registry : List String)
    (session_id : String) : Option (Bool × List String) :=
  match acquireLock lockHeld with
  | none => none
  | some _ =>
      if registry.contains session_id then
        some (true, registry.erase session_id)
      else some (false, registry)

/-- The loop of `SessionManager.shutdown` over the snapshot
`list(self.orchestrators.keys())`, run while `shutdown` itself holds the
registry lock. -/
def shutdownLoop (lockHeld : Bool) (snapshot registry : List String) :
    Option (List String) :=
  match snapshot with
  | [] => some registry
  | sid :: rest =>
      match endSession lockHeld registry sid with
      | none => none
      | some (_, registry') => shutdownLoop lockHeld rest registry'

/-- `SessionManager.shutdown` (orchestrator.py lines 493-498): take the
registry lock, then call `end_session` for every registered session id —
each of which tries to take the same non-reentrant lock again.  `none`
models a shutdown that never returns. -/
def shutdownModel (registry : List String) : Option (List String) :=
  match acquireLock false with
  | none => none
  | some _ => shutdownLoop true registry registry

/-! ## The session context (`rataura2/orchestration/context.py`). -/

/-- A `ContextValue` (context.py lines 27-34); the scope enum is a `str`
enum, modelled by its string value, and float times by integers. -/
structure ContextValue where
  value : Prim
  scope : String
  timestamp : Int
  ttl : Option Int
  metadata : List (String × Prim)
deriving DecidableEq, Repr

/-- The `SessionContext` store (context.py line 47). -/
structure SessionCtx where
  data : List (String × ContextValue)
deriving DecidableEq, Repr

/-- `now > created_at + ttl` (context.py lines 88-90): entries with no
TTL never expire. -/
def isExpired (now : Int) (cv : ContextValue) : Bool :=
  match cv.ttl with
  | none => false
  | some t => cv.timestamp + t < now

/-- `SessionContext.set` (context.py lines 49-67). -/
def SessionCtx.set (c : SessionCtx) (now : Int) (key : String)
    (value : Prim) (scope : String) (ttl : Option Int)
    (metadata : List (String × Prim)) : SessionCtx :=
  ⟨ainsert c.data key
    { value := value, scope := scope, timestamp := now, ttl := ttl,
      metadata := metadata }⟩

/-- `SessionContext.get` (context.py lines 69-95): an expired entry is
deleted and the default returned. -/
def SessionCtx.get (c : SessionCtx) (now : Int) (key : String)
    (default : Prim) : Prim × SessionCtx :=
  match alookup c.data key with
  | none => (default, c)
  | some cv =>
      if isExpired now cv then (default, ⟨aremove c.data key⟩)
      else (cv.value, c)

/-- The enumeration loop of `SessionContext.get_all` (context.py lines
107-123): expired entries are deleted, the rest filtered by scope. -/
def getAllAux (now : Int) (scope : Option String) :
    List (String × ContextValue) →
    List (String × Prim) × List (String × ContextValue)
  | [] => ([], [])
  | (k, cv) :: rest =>
      let r := getAllAux now scope rest
      if isExpired now cv then r
      else if scope = none ∨ scope = some cv.scope then
        ((k, cv.value) :: r.1, (k, cv) :: r.2)
      else (r.1, (k, cv) :: r.2)

/-- `SessionContext.get_all` (context.py lines 97-123): the filtered
value map together with the store after lazy eviction. -/
def SessionCtx.getAll (c : SessionCtx) (now : Int) (scope : Option String) :
    List (String × Prim) × SessionCtx :=
  let (res, keep) := getAllAux now scope c.data
  (res, ⟨keep⟩)

/-! ## Concrete instances used to settle the claims -/

/-- A transition of priority 10 from agent 1 to agent 2 guarded by the
user-input pattern `"hi"`. -/
def c1RowA : TransitionRow :=
  { id := 10, source_agent_id := 1, target_agent_id := 2,
    condition := .user_input (some "hi"), priority := 10 }

/-- A `business_rules` transition of priority 1 from agent 1 to
agent 3. -/
def c1RowB : TransitionRow :=
  { id := 11, source_agent_id := 1, target_agent_id := 3,
    condition := .business_rules, priority := 1 }

/-- A three-agent graph with the two transitions above. -/
def c1G : AgentGraph :=
  buildGraph [(1, "general"), (2, "combat"), (3, "market")] [c1RowA, c1RowB]

/-- A rule set whose single rule always fires and transitions to
agent 3. -/
def c1RT : List (Int × List Rule) :=
  [(11, [{ conditions := .all [], actions := [.transition_to_agent 3] }])]

/-- A context whose user input matches the pattern of `c1RowA`. -/
def c1Ctx : Ctx :=
  { user_input := some (.prim (.s "hi there")), events := some [] }

/-- A `business_rules` transition row from agent 1. -/
def c2Row : TransitionRow :=
  { id := 21, source_agent_id := 1, target_agent_id := 2,
    condition := .business_rules, priority := 0 }

/-- A rule set whose single always-firing rule invokes
`transition_to_agent` twice, first with 2 and then with 3. -/
def c2RT : List (Int × List Rule) :=
  [(21, [{ conditions := .all [],
           actions := [.transition_to_agent 2, .transition_to_agent 3] }])]

/-- The agent table for the C3 scenario. -/
def c3Agents : List (Int × String) := [(1, "alpha"), (2, "beta")]

/-- An orchestrator state currently on agent 1 with an empty event
history. -/
def c3St : OrchState :=
  { ctx := { current_agent_id := some (.prim (.i 1)), events := some [] },
    controllerAgentId := some 1 }

/-- Two equal-priority transitions out of agent 1, inserted with ids 5
then 4. -/
def c5G : AgentGraph :=
  buildGraph [(1, "a"), (2, "b"), (3, "c")]
    [{ id := 5, source_agent_id := 1, target_agent_id := 2,
       condition := .user_input none, priority := 7 },
     { id := 4, source_agent_id := 1, target_agent_id := 3,
       condition := .user_input none, priority := 7 }]

/-- A stored event of type `custom` whose `data` dict carries
`k = "v"`. -/
def c6Event : StoredEvent :=
  { type := "custom", timestamp := 0,
    data := [("k", .prim (.s "v"))], source := "orchestrator" }

/-- A context whose history holds exactly `c6Event`. -/
def c6Ctx : Ctx := { events := some [c6Event] }

/-- The self-loop `business_rules` row of the C9 scenario. -/
def c9Row : TransitionRow :=
  { id := 30, source_agent_id := 1, target_agent_id := 1,
    condition := .business_rules, priority := 0 }

/-- A one-agent graph whose single transition is a `business_rules`
self-loop on agent 1. -/
def c9G : AgentGraph := buildGraph [(1, "solo")] [c9Row]

/-- A rule set whose single always-firing rule records a context update
and transitions to the current agent. -/
def c9RT : List (Int × List Rule) :=
  [(30, [{ conditions := .all [],
           actions := [.set_context_value "k" "v",
                       .transition_to_agent 1] }])]

/-- An orchestrator state currently on agent 1. -/
def c9St : OrchState :=
  { ctx := { current_agent_id := some (.prim (.i 1)), events := some [] },
    controllerAgentId := some 1 }

/-- 150 distinct events, used to exercise the history cap. -/
def c8Events : List StoredEvent :=
  (List.range 150).map (fun i =>
    { type := "custom", timestamp := (i : Int), data := [], source := "s" })

/-- A session-created event, used to exercise event dispatch. -/
def c10Event : EventData :=
  { type := "session_created", timestamp := 3,
    data := [("session_id", .prim (.s "s1"))], source := "session_manager" }

/-- The last recorded `transition_to_agent` argument of an action list,
scanning from the right. -/
def pickTarget : RAction → Option Int
  | .transition_to_agent i => some i
  | _ => none

instance {ε α : Type} [DecidableEq ε] [DecidableEq α] :
    DecidableEq (Except ε α) := fun x y =>
  match x, y with
  | .ok u, .ok v =>
      if h : u = v then .isTrue (by rw [h]) else .isFalse (by simp [h])
  | .error u, .error v =>
      if h : u = v then .isTrue (by rw [h]) else .isFalse (by simp [h])
  | .ok _, .error _ => .isFalse (by simp)
  | .error _, .ok _ => .isFalse (by simp)

/-- Keys of an association list are pairwise distinct: the invariant
every Python dict maintains. -/
def keysNodup {α : Type} (d : List (String × α)) : Prop :=
  d.Pairwise (fun x y => x.1 ≠ y.1)

/-! # Theorems -/

/-! ## General lemmas -/

theorem alookup_ainsert_self {α : Type} (d : List (String × α)) (k : String)
    (v : α) : alookup (ainsert d k v) k = some v := by
  induction d with
  | nil => simp [ainsert, alookup]
  | cons h rest ih =>
      by_cases hk : h.1 = k
      · simp [ainsert, hk, alookup]
      · simp [ainsert, hk, alookup, ih]

theorem getLast?_cons_orElse (l : List Int) (i : Int) (x : Option Int) :
    ((i :: l).getLast? <|> x) = (l.getLast? <|> some i) := by
  induction l generalizing i x with
  | nil => simp
  | cons b l' ih =>
      rw [List.getLast?_cons_cons]
      rw [ih b x, ih b (some i)]

/-! ## C2 — first `transition_to_agent` invocation does not win -/

/-- C2 counterexample: a rule whose actions invoke `transition_to_agent`
first with 2 and then with 3 makes the controller report target 3 — the
argument of the last invocation, not of the first as the claim states. -/
theorem c2_first_wins_counterexample :
    controllerCheckTransitions [c2Row] c2RT 1 (convVars {}) =
      .ok (some (3, [])) ∧ (3 : Int) ≠ 2 := by
  exact ⟨rfl, by decide⟩

/-- C2 (amended): within one evaluation, `transition_to_agent` records
its target by unconditional assignment, so the target reported after an
action sequence is the argument of the LAST `transition_to_agent`
invocation in it (falling back to the previously recorded value when the
sequence contains none). -/
theorem c2_last_invocation_wins (st : ControllerState)
    (as' : List RAction) :
    (execActions st as').next_agent_id =
      ((as'.filterMap pickTarget).getLast? <|> st.next_agent_id) := by
  induction as' generalizing st with
  | nil => simp [execActions]
  | cons a rest ih =>
      have hfold : execActions st (a :: rest) =
          execActions (execAction st a) rest := rfl
      rw [hfold, ih]
      cases a with
      | transition_to_agent i =>
          simp only [List.filterMap_cons, pickTarget]
          rw [getLast?_cons_orElse]
          rfl
      | set_context_value k v =>
          simp only [List.filterMap_cons, pickTarget]
          rfl
      | log_transition =>
          simp only [List.filterMap_cons, pickTarget]
          rfl

/-! ## C4 — `shutdown` self-deadlocks on the non-reentrant registry
lock -/

/-- C4: with at least one registered session, `shutdown` takes the
registry lock and then calls `end_session`, which tries to take the same
non-reentrant lock again and blocks forever (`none`); by contrast a
direct `end_session` call with the lock free succeeds.  The claim's
required behavior (shutdown terminates with every session ended) is the
clear intent; the recursive lock acquisition makes it unreachable. -/
theorem c4_shutdown_deadlocks :
    shutdownModel ["session-1"] = none ∧
    endSession false ["session-1"] "session-1" = some (true, []) ∧
    (∀ (sid : String) (rest : List String),
        shutdownModel (sid :: rest) = none) := by
  exact ⟨rfl, rfl, fun sid rest => rfl⟩

/-! ## Sorting lemmas for the priority sort -/

theorem insertDescBy_perm {α : Type} (pr : α → Int) (t : α) (l : List α) :
    (insertDescBy pr t l).Perm (t :: l) := by
  induction l with
  | nil => simp [insertDescBy]
  | cons h rest ih =>
      by_cases hlt : pr h < pr t
      · simp [insertDescBy, hlt]
      · simp only [insertDescBy, hlt, if_false]
        exact (ih.cons h).trans (List.Perm.swap t h rest)

theorem foldl_insertDescBy_perm {α : Type} (pr : α → Int) :
    ∀ (l acc : List α),
      (l.foldl (fun a t => insertDescBy pr t a) acc).Perm (acc ++ l)
  | [], acc => by simp
  | t :: rest, acc => by
      have h1 := foldl_insertDescBy_perm pr rest (insertDescBy pr t acc)
      have h2 : (insertDescBy pr t acc ++ rest).Perm (acc ++ t :: rest) := by
        have h3 := (insertDescBy_perm pr t acc).append_right rest
        exact h3.trans List.perm_middle.symm
      exact h1.trans h2

theorem sortDescBy_perm {α : Type} (pr : α → Int) (l : List α) :
    (sortDescBy pr l).Perm l := by
  simpa [sortDescBy] using foldl_insertDescBy_perm pr l []

theorem insertDescBy_pairwise {α : Type} (pr : α → Int) (t : α)
    {l : List α} (hl : l.Pairwise (fun x y => pr y ≤ pr x)) :
    (insertDescBy pr t l).Pairwise (fun x y => pr y ≤ pr x) := by
  induction l with
  | nil => simp [insertDescBy]
  | cons h rest ih =>
      rw [List.pairwise_cons] at hl
      obtain ⟨hh, hrest⟩ := hl
      by_cases hlt : pr h < pr t
      · simp only [insertDescBy, hlt, if_true]
        refine List.Pairwise.cons ?_ (List.Pairwise.cons hh hrest)
        intro x hx
        rcases List.mem_cons.mp hx with hx | hx
        · exact le_of_lt (hx ▸ hlt)
        · exact le_trans (hh x hx) (le_of_lt hlt)
      · simp only [insertDescBy, hlt, if_false]
        refine List.Pairwise.cons ?_ (ih hrest)
        intro x hx
        rcases List.mem_cons.mp
            ((insertDescBy_perm pr t rest).mem_iff.mp hx) with hx | hx
        · exact hx ▸ le_of_not_lt hlt
        · exact hh x hx

theorem foldl_insertDescBy_pairwise {α : Type} (pr : α → Int) :
    ∀ (l acc : List α), acc.Pairwise (fun x y => pr y ≤ pr x) →
      (l.foldl (fun a t => insertDescBy pr t a) acc).Pairwise
        (fun x y => pr y ≤ pr x)
  | [], _, hacc => hacc
  | t :: rest, acc, hacc =>
      foldl_insertDescBy_pairwise pr rest (insertDescBy pr t acc)
        (insertDescBy_pairwise pr t hacc)

theorem sortDescBy_pairwise {α : Type} (pr : α → Int) (l : List α) :
    (sortDescBy pr l).Pairwise (fun x y => pr y ≤ pr x) :=
  foldl_insertDescBy_pairwise pr l [] (List.Pairwise.nil)

theorem insertDescBy_filter {α : Type} (pr : α → Int) (t : α) (p : Int)
    {l : List α} (hl : l.Pairwise (fun x y => pr y ≤ pr x)) :
    (insertDescBy pr t l).filter (fun x => pr x == p) =
      if pr t = p then l.filter (fun x => pr x == p) ++ [t]
      else l.filter (fun x => pr x == p) := by
  induction l with
  | nil =>
      by_cases hp : pr t = p <;>
        simp [insertDescBy, List.filter_cons, hp]
  | cons h rest ih =>
      rw [List.pairwise_cons] at hl
      obtain ⟨hh, hrest⟩ := hl
      by_cases hlt : pr h < pr t
      · simp only [insertDescBy, hlt, if_true]
        by_cases hpt : pr t = p
        · have hnil : (h :: rest).filter (fun x => pr x == p) = [] := by
            rw [List.filter_eq_nil_iff]
            intro x hx
            have hxle : pr x ≤ pr h := by
              rcases List.mem_cons.mp hx with hx | hx
              · exact hx ▸ le_refl _
              · exact hh x hx
            simp only [beq_iff_eq]
            omega
          have h1 : (pr t == p) = true := beq_iff_eq.mpr hpt
          rw [if_pos hpt]
          simp [List.filter_cons, h1, hnil]
        · have h1 : (pr t == p) = false := by simp [hpt]
          rw [if_neg hpt]
          simp [List.filter_cons, h1]
      · simp only [insertDescBy, hlt, if_false]
        by_cases hph : pr h = p <;> by_cases hpt : pr t = p <;>
          simp [List.filter_cons, hph, hpt, ih hrest]

theorem foldl_insertDescBy_filter {α : Type} (pr : α → Int) (p : Int) :
    ∀ (l acc : List α), acc.Pairwise (fun x y => pr y ≤ pr x) →
      (l.foldl (fun a t => insertDescBy pr t a) acc).filter
          (fun x => pr x == p) =
        acc.filter (fun x => pr x == p) ++ l.filter (fun x => pr x == p)
  | [], acc, _ => by simp
  | t :: rest, acc, hacc => by
      have ih := foldl_insertDescBy_filter pr p rest (insertDescBy pr t acc)
        (insertDescBy_pairwise pr t hacc)
      have hins := insertDescBy_filter pr t p hacc
      simp only [List.foldl_cons] at *
      rw [ih, hins]
      by_cases hpt : pr t = p <;> simp [List.filter_cons, hpt]

theorem sortDescBy_filter {α : Type} (pr : α → Int) (p : Int)
    (l : List α) :
    (sortDescBy pr l).filter (fun x => pr x == p) =
      l.filter (fun x => pr x == p) := by
  simpa [sortDescBy] using
    foldl_insertDescBy_filter pr p l [] List.Pairwise.nil

/-! ## C5 — transition order: priority descending, ties by insertion
order -/

/-- C5 counterexample: two equal-priority transitions out of agent 1,
inserted with ids 5 then 4, come back in the order `[5, 4]` — the tie is
not broken by transition id ascending (`[4, 5]`), but by edge insertion
order. -/
theorem c5_tie_order_counterexample :
    (getAgentTransitions c5G 1).map (fun ts => ts.map (·.id)) =
      .ok [5, 4] ∧
    (getAgentTransitions c5G 1).map (fun ts => ts.map (·.priority)) =
      .ok [7, 7] ∧
    ¬ ([5, 4] : List Int) = [4, 5] := by
  exact ⟨rfl, rfl, by decide⟩

/-- C5 (amended): `get_agent_transitions` returns the agent's out-edges
sorted by priority descending; the sort is stable, so equal-priority
transitions keep the graph's adjacency (insertion) order rather than
being reordered by id; and, the function being pure, repeated calls with
unchanged data return the identical list. -/
theorem c5_sorted_stable (g : AgentGraph) (a : Int)
    (ts : List TransitionRec) (hok : getAgentTransitions g a = .ok ts) :
    ts.Pairwise (fun x y => y.priority ≤ x.priority) ∧
    ts.Perm ((outEdges g a).map (toRec g)) ∧
    (∀ p : Int, ts.filter (fun t => t.priority == p) =
      ((outEdges g a).map (toRec g)).filter (fun t => t.priority == p)) := by
  unfold getAgentTransitions at hok
  split at hok
  · have hts : ts = sortByPriorityDesc ((outEdges g a).map (toRec g)) := by
      cases hok
      rfl
    subst hts
    refine ⟨sortDescBy_pairwise _ _, sortDescBy_perm _ _, fun p => ?_⟩
    exact sortDescBy_filter _ p _
  · cases hok

/-- C5 witness: the theorem at the concrete two-transition graph,
with the stability conjunct instantiated at the shared priority 7. -/
theorem c5_sorted_stable_witness :
    getAgentTransitions c5G 1 = .ok
      [{ id := 5, target_agent_id := 2, target_agent_name := "b",
         condition := .user_input none, priority := 7 },
       { id := 4, target_agent_id := 3, target_agent_name := "c",
         condition := .user_input none, priority := 7 }] ∧
    ([({ id := 5, target_agent_id := 2, target_agent_name := "b",
         condition := .user_input none, priority := 7 } : TransitionRec),
      { id := 4, target_agent_id := 3, target_agent_name := "c",
        condition := .user_input none, priority := 7 }]).Pairwise
      (fun x y => y.priority ≤ x.priority) ∧
    ([({ id := 5, target_agent_id := 2, target_agent_name := "b",
         condition := .user_input none, priority := 7 } : TransitionRec),
      { id := 4, target_agent_id := 3, target_agent_name := "c",
        condition := .user_input none, priority := 7 }]).Perm
      ((outEdges c5G 1).map (toRec c5G)) ∧
    ([({ id := 5, target_agent_id := 2, target_agent_name := "b",
         condition := .user_input none, priority := 7 } : TransitionRec),
      { id := 4, target_agent_id := 3, target_agent_name := "c",
        condition := .user_input none, priority := 7 }]).filter
        (fun t => t.priority == 7) =
      ((outEdges c5G 1).map (toRec c5G)).filter
        (fun t => t.priority == 7) := by
  refine ⟨rfl, ?_, ?_, ?_⟩
  · exact (c5_sorted_stable c5G 1 _ rfl).1
  · exact (c5_sorted_stable c5G 1 _ rfl).2.1
  · exact (c5_sorted_stable c5G 1 _ rfl).2.2 7

/-! ## C8 — the event history cap -/

theorem takeLast_of_le {α : Type} {l : List α} {n : Nat}
    (h : l.length ≤ n) : takeLast n l = l := by
  simp [takeLast, Nat.sub_eq_zero_of_le h]

theorem length_takeLast {α : Type} (n : Nat) (l : List α) :
    (takeLast n l).length ≤ n := by
  simp only [takeLast, List.length_drop]
  omega

theorem takeLast_append_takeLast (xs : List StoredEvent) (e : StoredEvent) :
    takeLast 100 (takeLast 100 xs ++ [e]) = takeLast 100 (xs ++ [e]) := by
  by_cases hle : xs.length ≤ 100
  · rw [takeLast_of_le hle]
  · have hm : 100 < xs.length := by omega
    have h1 : takeLast 100 (takeLast 100 xs ++ [e]) =
        (xs.drop (xs.length - 100)).drop 1 ++ [e] := by
      simp only [takeLast, List.length_append, List.length_drop,
        List.length_cons, List.length_nil]
      rw [List.drop_append_of_le_length
        (by simp only [List.length_drop]; omega)]
      have hidx : xs.length - (xs.length - 100) + (0 + 1) - 100 = 1 := by
        omega
      rw [hidx]
    have h2 : takeLast 100 (xs ++ [e]) =
        xs.drop (xs.length + 1 - 100) ++ [e] := by
      simp only [takeLast, List.length_append, List.length_cons,
        List.length_nil]
      rw [List.drop_append_of_le_length (by omega)]
    rw [h1, h2, List.drop_drop]
    have hidx : xs.length - 100 + 1 = xs.length + 1 - 100 := by omega
    rw [hidx]

theorem foldl_appendCapped :
    ∀ (es xs : List StoredEvent),
      es.foldl appendCapped (takeLast 100 xs) = takeLast 100 (xs ++ es)
  | [], xs => by simp
  | e :: rest, xs => by
      have hstep : appendCapped (takeLast 100 xs) e =
          takeLast 100 (xs ++ [e]) := takeLast_append_takeLast xs e
      calc (e :: rest).foldl appendCapped (takeLast 100 xs)
          = rest.foldl appendCapped (appendCapped (takeLast 100 xs) e) := by
              rw [List.foldl_cons]
        _ = rest.foldl appendCapped (takeLast 100 (xs ++ [e])) := by
              rw [hstep]
        _ = takeLast 100 ((xs ++ [e]) ++ rest) := foldl_appendCapped rest _
        _ = takeLast 100 (xs ++ e :: rest) := by
              simp

/-- C8: the history bound of `handle_event`.  Each insertion keeps the
list at 100 entries or fewer; starting from an empty history, any
insertion sequence leaves exactly the most recent 100 events in
oldest-first order (`drop (length - 100)`); in particular 150 insertions
leave the 100 most recent (the original list with its oldest 50
dropped). -/
theorem c8_history_cap :
    (∀ (h : List StoredEvent) (e : StoredEvent),
      (appendCapped h e).length ≤ 100) ∧
    (∀ es : List StoredEvent,
      es.foldl appendCapped [] = es.drop (es.length - 100)) ∧
    (∀ es : List StoredEvent, es.length = 150 →
      es.foldl appendCapped [] = es.drop 50) := by
  refine ⟨fun h e => length_takeLast 100 _, fun es => ?_, fun es h150 => ?_⟩
  · have h0 : takeLast 100 ([] : List StoredEvent) = [] := rfl
    have := foldl_appendCapped es []
    rw [h0] at this
    simpa [takeLast] using this
  · have h0 : takeLast 100 ([] : List StoredEvent) = [] := rfl
    have := foldl_appendCapped es []
    rw [h0] at this
    simp only [List.nil_append] at this
    rw [this, takeLast, h150]

/-- C8 witness: 150 concrete events inserted into an empty history leave
exactly the last 100 of them. -/
theorem c8_history_cap_witness :
    c8Events.length = 150 ∧
    c8Events.foldl appendCapped [] = c8Events.drop 50 :=
  ⟨rfl, c8_history_cap.2.2 c8Events rfl⟩

/-! ## C6 — event conditions match record fields, not the data dict -/

/-- C6 counterexample: the history holds an event of type `custom` whose
`data` dict contains the pair `k = "v"`, and the condition requires
exactly that pair, yet the condition evaluates to false — the code tests
`event_data` against the stored record's top-level keys, not against its
`data` dict. -/
theorem c6_data_superset_counterexample :
    checkCondition (.event (some "custom") [("k", .p (.s "v"))]) c6Ctx =
      .ok false ∧
    c6Ctx.events = some [c6Event] ∧
    c6Event.type = "custom" ∧
    alookup c6Event.data "k" = some (.prim (.s "v")) := by
  exact ⟨rfl, rfl, rfl, rfl⟩

/-- C6 (amended): an event-kind condition matches iff the history holds
some event whose type equals the condition's `event_type` and whose
stored record itself (its top-level `type`/`timestamp`/`data`/`source`
fields, not the contents of its `data` dict) contains every key/value
pair of the condition's `event_data`; the scan stops at the first such
event. -/
theorem c6_event_match_record_fields (et : Option String)
    (ed : List (String × EField)) (ctx : Ctx) :
    checkCondition (.event et ed) ctx = .ok true ↔
      ∃ evs, ctx.events = some evs ∧ ∃ e ∈ evs, et = some e.type ∧
        ∀ kv ∈ ed, e.lookup kv.1 = some kv.2 := by
  cases hev : ctx.events with
  | none => simp [checkCondition, hev]
  | some evs =>
      simp [checkCondition, hev, eventMatches, List.any_eq_true,
        List.all_eq_true, Bool.and_eq_true, beq_iff_eq]

/-! ## C10 — one history record per registered handler per dispatch -/

theorem handleEvent_events (h : Handler) (e : EventData) (ctx : Ctx)
    (evs : List StoredEvent) (hev : ctx.events = some evs)
    (hlen : evs.length + 1 ≤ 100)
    (hcb : ∀ cbs, alookup h.callbacks e.type = some cbs →
      ∀ cb ∈ cbs, ∀ c : Ctx, (cb e c).events = c.events) :
    (handleEvent h e ctx).events = some (evs ++ [eventRecord e]) := by
  unfold handleEvent
  have hcap : appendCapped (ctx.events.getD []) (eventRecord e) =
      evs ++ [eventRecord e] := by
    rw [hev]
    unfold appendCapped
    exact takeLast_of_le (by simpa using hlen)
  cases hlook : alookup h.callbacks e.type with
  | none => simp [hlook, hcap]
  | some cbs =>
      simp only [hlook, hcap]
      have : ∀ (l : List (EventData → Ctx → Ctx)) (c : Ctx),
          (∀ cb ∈ l, ∀ c' : Ctx, (cb e c').events = c'.events) →
          (l.foldl (fun c' cb => cb e c') c).events = c.events := by
        intro l
        induction l with
        | nil => intro c _; rfl
        | cons cb rest ih =>
            intro c hall
            rw [List.foldl_cons]
            rw [ih (cb e c) (fun cb' h' => hall cb' (List.mem_cons_of_mem _ h'))]
            exact hall cb (List.mem_cons_self _ _) c
      rw [this cbs _ (hcb cbs hlook)]

/-- C10: dispatching one event through `process_event` makes every
registered handler append one copy of the same record, so (as long as
the per-event-type callbacks involved do not themselves touch the
history, which holds for every callback defined in events.py) the
history grows by exactly one identical record per handler — with the
orchestrator's three handlers, three copies per ingested event. -/
theorem c10_dispatch_appends :
    ∀ (handlers : List Handler) (e : EventData) (ctx : Ctx)
      (evs : List StoredEvent),
      ctx.events = some evs →
      evs.length + handlers.length ≤ 100 →
      (∀ h ∈ handlers, ∀ cbs, alookup h.callbacks e.type = some cbs →
        ∀ cb ∈ cbs, ∀ c : Ctx, (cb e c).events = c.events) →
      (processEvent handlers e ctx).events =
        some (evs ++ List.replicate handlers.length (eventRecord e))
  | [], e, ctx, evs, hev, _, _ => by
      simpa [processEvent] using hev
  | h :: rest, e, ctx, evs, hev, hlen, hcb => by
      have hstep : (handleEvent h e ctx).events =
          some (evs ++ [eventRecord e]) := by
        refine handleEvent_events h e ctx evs hev (by simp at hlen ⊢; omega) ?_
        exact hcb h (List.mem_cons_self _ _)
      have hrest := c10_dispatch_appends rest e (handleEvent h e ctx)
        (evs ++ [eventRecord e]) hstep
        (by simp at hlen ⊢; omega)
        (fun h' hmem => hcb h' (List.mem_cons_of_mem _ hmem))
      calc (processEvent (h :: rest) e ctx).events
          = (processEvent rest e (handleEvent h e ctx)).events := by
              simp [processEvent]
        _ = some ((evs ++ [eventRecord e]) ++
              List.replicate rest.length (eventRecord e)) := hrest
        _ = some (evs ++ List.replicate (h :: rest).length (eventRecord e)) := by
              simp [List.replicate_succ, List.append_assoc]

/-- C10 witness: a session-created event dispatched to the orchestrator's
three registered handlers appears exactly three times in an initially
empty history. -/
theorem c10_dispatch_appends_witness :
    (processEvent orchestratorHandlers c10Event
        { events := some [] }).events =
      some (List.replicate 3 (eventRecord c10Event)) := by
  have h := c10_dispatch_appends orchestratorHandlers c10Event
    { events := some [] } [] rfl (by decide) ?_
  · simpa using h
  · intro h' hmem cbs hcbs cb hcb c
    simp only [orchestratorHandlers, List.mem_cons, List.not_mem_nil,
      or_false] at hmem
    rcases hmem with hmem | hmem | hmem
    · subst hmem
      simp [livekitEventHandler, alookup] at hcbs
    · subst hmem
      simp only [sessionEventHandler, alookup, c10Event,
        reduceIte] at hcbs
      injection hcbs with hcbs'
      subst hcbs'
      simp only [List.mem_cons, List.not_mem_nil, or_false] at hcb
      subst hcb
      rfl
    · subst hmem
      simp [agentEventHandler, alookup, c10Event] at hcbs

/-! ## C1 — the order conditions are evaluated in -/

theorem firstMatch_prefix (ctx : Ctx) :
    ∀ (pre : List TransitionRec) (t : TransitionRec)
      (post : List TransitionRec),
      (∀ u ∈ pre, checkCondition u.condition ctx = .ok false) →
      checkCondition t.condition ctx = .ok true →
      firstMatch (pre ++ t :: post) ctx = .ok (some t.target_agent_id)
  | [], t, post, _, ht => by
      simp [firstMatch, ht]
  | u :: pre, t, post, hpre, ht => by
      have hu : checkCondition u.condition ctx = .ok false :=
        hpre u (List.mem_cons_self _ _)
      have ih := firstMatch_prefix ctx pre t post
        (fun v hv => hpre v (List.mem_cons_of_mem _ hv)) ht
      simp only [List.cons_append, firstMatch, hu]
      exact ih

/-- C1 (amended): the base `AgentGraphManager.check_transitions` scans
the priority-sorted transition list and returns the first match — a
lower-priority match is never returned when a higher-priority (earlier)
transition also matches.  The `BusinessRulesAgentGraphManager` override,
however, evaluates `business_rules`-kind transitions first: whenever the
`TransitionController` reports a target, that target is returned and the
priority-sorted scan of the remaining condition kinds is bypassed
entirely. -/
theorem c1_first_match_order :
    (∀ (g : AgentGraph) (a : Int) (ctx : Ctx)
       (pre post : List TransitionRec) (t : TransitionRec),
       getAgentTransitions g a = .ok (pre ++ t :: post) →
       (∀ u ∈ pre, checkCondition u.condition ctx = .ok false) →
       checkCondition t.condition ctx = .ok true →
       checkTransitions g a ctx = .ok (some t.target_agent_id)) ∧
    (∀ (g : AgentGraph) (tt : List TransitionRow)
       (rt : List (Int × List Rule)) (a : Int) (ctx : Ctx) (next : Int)
       (ups : List (String × Prim)),
       controllerCheckTransitions tt rt a (convVars ctx) =
         .ok (some (next, ups)) →
       (brCheckTransitions g tt rt a ctx).map Prod.fst = .ok (some next)) := by
  constructor
  · intro g a ctx pre post t hok hpre ht
    unfold checkTransitions
    rw [hok]
    exact firstMatch_prefix ctx pre t post hpre ht
  · intro g tt rt a ctx next ups hctl
    unfold brCheckTransitions
    rw [hctl]
    rfl

/-- C1 counterexample: agent 1 has a priority-10 `user_input` transition
to agent 2 whose condition matches the context, and a priority-1
`business_rules` transition to agent 3 whose rule fires.  The claim's
single priority-sorted scan picks agent 2 (as the base manager does),
but the Business-Rules manager returns agent 3: the lower-priority
rules-kind transition wins over the higher-priority matching one. -/
theorem c1_rules_bypass_counterexample :
    checkTransitions c1G 1 c1Ctx = .ok (some 2) ∧
    brCheckTransitions c1G [c1RowA, c1RowB] c1RT 1 c1Ctx =
      .ok (some 3, c1Ctx) ∧
    c1RowA.priority = 10 ∧ c1RowB.priority = 1 := by
  exact ⟨rfl, rfl, rfl, rfl⟩

/-- C1 witness: the two parts of the theorem at the concrete graph —
the base scan returns agent 2 (the first match in sorted order), and a
triggered controller result short-circuits to its own target. -/
theorem c1_first_match_order_witness :
    checkTransitions c1G 1 c1Ctx =
      .ok (some ((toRec c1G c1RowA).target_agent_id)) ∧
    (brCheckTransitions c1G [c1RowA, c1RowB] c1RT 1 c1Ctx).map Prod.fst =
      .ok (some 3) :=
  ⟨c1_first_match_order.1 c1G 1 c1Ctx [] [toRec c1G c1RowB]
      (toRec c1G c1RowA) rfl (by simp) rfl,
   c1_first_match_order.2 c1G [c1RowA, c1RowB] c1RT 1 c1Ctx 3 [] rfl⟩

/-! ## C3 — an exception during the commit sequence is not rolled
back -/

/-- C3 counterexample: with a valid current agent (1) and target (2) but
a failing `_create_current_agent`, the call returns `ERROR` yet the
context has already been committed: the current agent id is no longer
what it was before the call, and the internal transition event has been
appended three times. -/
theorem c3_no_rollback_counterexample :
    (executeTransition c3Agents true 5 c3St 2).1 = .error ∧
    (executeTransition c3Agents true 5 c3St 2).2.ctx.current_agent_id ≠
      c3St.ctx.current_agent_id ∧
    ((executeTransition c3Agents true 5 c3St 2).2.ctx.events.getD
        []).length = 3 := by
  refine ⟨rfl, by decide, rfl⟩

/-- C3 (amended): when `execute_transition` fails before its first
context write (missing or falsy current agent id, target equal to the
current agent, or target agent not found), `ERROR`/`NO_TRANSITION` is
returned with the state untouched; but when the exception is raised by
the final `_create_current_agent` step, the call returns `ERROR` with
the already-performed commit left in place — the context's current and
previous agent ids keep their new values (no rollback). -/
theorem c3_error_partial_commit :
    (∀ (A : List (Int × String)) (now : Int) (st : OrchState)
       (target cur : Int) (name : String),
       st.ctx.current_agent_id = some (.prim (.i cur)) →
       cur ≠ 0 → cur ≠ target →
       lookupBy A target = some name →
       (executeTransition A true now st target).1 = .error ∧
       (executeTransition A true now st target).2.ctx.current_agent_id =
         some (.prim (.i target)) ∧
       (executeTransition A true now st target).2.ctx.previous_agent_id =
         some (.prim (.i cur))) ∧
    (∀ (A : List (Int × String)) (b : Bool) (now : Int) (st : OrchState)
       (target cur : Int),
       st.ctx.current_agent_id = some (.prim (.i cur)) →
       cur ≠ 0 → cur ≠ target →
       lookupBy A target = none →
       executeTransition A b now st target = (.error, st)) := by
  constructor
  · intro A now st target cur name hcur hc0 hct hlook
    have hfalsy : (Val.prim (Prim.i cur)).falsy = false := by
      simp [Val.falsy, Prim.falsy, hc0]
    have hbeq : (Val.prim (Prim.i cur) == Val.prim (Prim.i target)) =
        false := by
      simp only [beq_eq_false_iff_ne, ne_eq, Val.prim.injEq, Prim.i.injEq]
      exact fun h => hct h
    simp only [executeTransition, hcur, hfalsy, hbeq, hlook,
      Bool.false_eq_true, if_false]
    exact ⟨rfl, rfl, rfl⟩
  · intro A b now st target cur hcur hc0 hct hlook
    have hfalsy : (Val.prim (Prim.i cur)).falsy = false := by
      simp [Val.falsy, Prim.falsy, hc0]
    have hbeq : (Val.prim (Prim.i cur) == Val.prim (Prim.i target)) =
        false := by
      simp only [beq_eq_false_iff_ne, ne_eq, Val.prim.injEq, Prim.i.injEq]
      exact fun h => hct h
    simp only [executeTransition, hcur, hfalsy, hbeq, hlook,
      Bool.false_eq_true, if_false]

/-- C3 witness: both parts of the theorem at the concrete state — the
create-agent failure keeps the committed ids, and a missing target agent
leaves the state untouched. -/
theorem c3_error_partial_commit_witness :
    ((executeTransition c3Agents true 5 c3St 2).1 = .error ∧
     (executeTransition c3Agents true 5 c3St 2).2.ctx.current_agent_id =
       some (.prim (.i 2)) ∧
     (executeTransition c3Agents true 5 c3St 2).2.ctx.previous_agent_id =
       some (.prim (.i 1))) ∧
    executeTransition c3Agents false 5 c3St 7 = (.error, c3St) :=
  ⟨c3_error_partial_commit.1 c3Agents 5 c3St 2 1 "beta" rfl
      (by decide) (by decide) rfl,
   c3_error_partial_commit.2 c3Agents false 5 c3St 7 1 rfl
      (by decide) (by decide) rfl⟩

/-! ## C7 — TTL expiry in the session context -/

theorem mem_ainsert {α : Type} {d : List (String × α)} {k : String}
    {v : α} {y : String × α} (hy : y ∈ ainsert d k v) :
    y = (k, v) ∨ y ∈ d := by
  induction d with
  | nil => simpa [ainsert] using hy
  | cons h rest ih =>
      by_cases hk : h.1 = k
      · simp only [ainsert, hk, if_true, List.mem_cons] at hy
        rcases hy with hy | hy
        · exact Or.inl hy
        · exact Or.inr (List.mem_cons_of_mem _ hy)
      · simp only [ainsert, hk, if_false, List.mem_cons] at hy
        rcases hy with hy | hy
        · exact Or.inr (hy ▸ List.mem_cons_self _ _)
        · rcases ih hy with hy | hy
          · exact Or.inl hy
          · exact Or.inr (List.mem_cons_of_mem _ hy)

theorem alookup_mem {α : Type} {d : List (String × α)} {k : String}
    {v : α} (h : alookup d k = some v) : (k, v) ∈ d := by
  induction d with
  | nil => cases h
  | cons hd rest ih =>
      rw [alookup] at h
      by_cases hk : hd.1 = k
      · rw [if_pos hk] at h
        injection h with h'
        subst h'
        subst hk
        exact List.mem_cons_self _ _
      · rw [if_neg hk] at h
        exact List.mem_cons_of_mem _ (ih h)

theorem ainsert_keysNodup {α : Type} {d : List (String × α)}
    (hd : keysNodup d) (k : String) (v : α) :
    keysNodup (ainsert d k v) := by
  induction d with
  | nil => simp [ainsert, keysNodup]
  | cons h rest ih =>
      rw [keysNodup, List.pairwise_cons] at hd
      obtain ⟨hh, hrest⟩ := hd
      by_cases hk : h.1 = k
      · simp only [ainsert, hk, if_true]
        rw [keysNodup, List.pairwise_cons]
        exact ⟨fun y hy => hk ▸ hh y hy, hrest⟩
      · simp only [ainsert, hk, if_false]
        rw [keysNodup, List.pairwise_cons]
        refine ⟨fun y hy => ?_, ih hrest⟩
        rcases mem_ainsert hy with hy | hy
        · exact hy ▸ fun h' => hk h'
        · exact hh y hy

theorem alookup_aremove_self_of_nodup {α : Type} {d : List (String × α)}
    (hd : keysNodup d) (k : String) :
    alookup (aremove d k) k = none := by
  induction d with
  | nil => rfl
  | cons h rest ih =>
      rw [keysNodup, List.pairwise_cons] at hd
      obtain ⟨hh, hrest⟩ := hd
      by_cases hk : h.1 = k
      · simp only [aremove, hk, if_true]
        cases hlook : alookup rest k with
        | none => rfl
        | some v =>
            exfalso
            exact hh _ (alookup_mem hlook) hk
      · simp only [aremove, hk, if_false, alookup]
        exact ih hrest

theorem alookup_aremove_ne {α : Type} (d : List (String × α))
    {k k' : String} (hne : k' ≠ k) :
    alookup (aremove d k') k = alookup d k := by
  induction d with
  | nil => rfl
  | cons h rest ih =>
      by_cases hk : h.1 = k'
      · simp only [aremove, hk, if_true, alookup]
        rw [if_neg hne]
      · simp only [aremove, hk, if_false, alookup, ih]

theorem getAllAux_lookup_none {now : Int} {scope : Option String}
    {k : String} :
    ∀ {d : List (String × ContextValue)}, alookup d k = none →
    alookup (getAllAux now scope d).1 k = none
  | [], _ => rfl
  | (k1, cv1) :: rest, hd => by
      rw [alookup] at hd
      by_cases hk : k1 = k
      · rw [if_pos hk] at hd
        cases hd
      · rw [if_neg hk] at hd
        have ih := @getAllAux_lookup_none now scope k rest hd
        simp only [getAllAux]
        by_cases hexp : isExpired now cv1 = true
        · simp only [hexp, if_true]
          exact ih
        · simp only [hexp, Bool.false_eq_true, if_false]
          by_cases hsc : scope = none ∨ scope = some cv1.scope
          · simp only [hsc, if_true, alookup, hk, if_false]
            exact ih
          · simp only [hsc, if_false]
            exact ih

theorem getAllAux_keep_lookup {now : Int} {scope : Option String}
    {k : String} {cv : ContextValue} (httl : cv.ttl = none) :
    ∀ {d : List (String × ContextValue)}, alookup d k = some cv →
    alookup (getAllAux now scope d).2 k = some cv
  | [], hd => by cases hd
  | (k1, cv1) :: rest, hd => by
      rw [alookup] at hd
      by_cases hk : k1 = k
      · rw [if_pos hk] at hd
        injection hd with hd'
        subst hd'
        have hexp : isExpired now cv1 = false := by
          simp [isExpired, httl]
        simp only [getAllAux, hexp, Bool.false_eq_true, if_false]
        by_cases hsc : scope = none ∨ scope = some cv1.scope
        · simp only [hsc, if_true, alookup, hk, if_true]
        · simp only [hsc, if_false, alookup, hk, if_true]
      · rw [if_neg hk] at hd
        have ih := @getAllAux_keep_lookup now scope k cv httl rest hd
        simp only [getAllAux]
        by_cases hexp : isExpired now cv1 = true
        · simp only [hexp, if_true]
          exact ih
        · simp only [hexp, Bool.false_eq_true, if_false]
          by_cases hsc : scope = none ∨ scope = some cv1.scope
          · simp only [hsc, if_true, alookup, hk, if_false]
            exact ih
          · simp only [hsc, if_false, alookup, hk]
            exact ih

/-- C7: a context entry set with a TTL and read strictly after its
expiration time yields the caller's default, is removed from the store,
and is absent from every subsequent `get_all`; while entries stored with
no TTL survive every `get` and every `get_all`. -/
theorem c7_ttl_expiry :
    (∀ (c : SessionCtx), keysNodup c.data →
      ∀ (t ttl now : Int) (key : String) (value : Prim) (scope : String)
        (md : List (String × Prim)) (default : Prim),
        t + ttl < now →
        ((c.set t key value scope (some ttl) md).get now key default).1 =
          default ∧
        alookup
          (((c.set t key value scope (some ttl) md).get now key
            default).2).data key = none ∧
        (∀ (now' : Int) (scope' : Option String),
          alookup
            ((((c.set t key value scope (some ttl) md).get now key
              default).2).getAll now' scope').1 key = none)) ∧
    (∀ (c : SessionCtx) (key : String) (cv : ContextValue),
      alookup c.data key = some cv → cv.ttl = none →
      (∀ (now : Int) (d' : Prim), (c.get now key d').1 = cv.value) ∧
      (∀ (now : Int) (k' : String) (d' : Prim),
        alookup (((c.get now k' d').2).data) key = some cv) ∧
      (∀ (now : Int) (scope : Option String),
        alookup (((c.getAll now scope).2).data) key = some cv)) := by
  constructor
  · intro c hnodup t ttl now key value scope md default hexp
    have hcv : alookup ((c.set t key value scope (some ttl) md)).data key =
        some { value := value, scope := scope, timestamp := t,
               ttl := some ttl, metadata := md } :=
      alookup_ainsert_self c.data key _
    have hisexp : isExpired now
        { value := value, scope := scope, timestamp := t,
          ttl := some ttl, metadata := md } = true := by
      simp only [isExpired]
      exact decide_eq_true hexp
    have hget : (c.set t key value scope (some ttl) md).get now key
        default =
        (default, ⟨aremove ((c.set t key value scope (some ttl) md)).data
          key⟩) := by
      unfold SessionCtx.get
      rw [hcv]
      simp only [hisexp, if_true]
    have hnodup' : keysNodup ((c.set t key value scope (some ttl)
        md)).data := ainsert_keysNodup hnodup key _
    have habsent : alookup (aremove ((c.set t key value scope (some ttl)
        md)).data key) key = none :=
      alookup_aremove_self_of_nodup hnodup' key
    refine ⟨by rw [hget], by rw [hget]; exact habsent,
      fun now' scope' => ?_⟩
    rw [hget]
    exact getAllAux_lookup_none habsent
  · intro c key cv hcv httl
    have hisexp : ∀ now : Int, isExpired now cv = false := by
      intro now
      simp [isExpired, httl]
    refine ⟨fun now d' => ?_, fun now k' d' => ?_, fun now scope => ?_⟩
    · unfold SessionCtx.get
      rw [hcv]
      simp only [hisexp, Bool.false_eq_true, if_false]
    · unfold SessionCtx.get
      by_cases hk : k' = key
      · subst hk
        rw [hcv]
        simp only [hisexp, Bool.false_eq_true, if_false]
        exact hcv
      · cases hlook : alookup c.data k' with
        | none => simpa using hcv
        | some cv' =>
            by_cases hexp' : isExpired now cv' = true
            · simp only [hlook, hexp', if_true]
              exact (alookup_aremove_ne c.data hk).trans hcv
            · simp only [hlook, hexp', Bool.false_eq_true, if_false]
              exact hcv
    · exact getAllAux_keep_lookup httl hcv

/-- C7 witness: a concrete entry with a one-second TTL set at time 0 and
read at time 2 behaves as absent and is evicted, while a no-TTL entry
survives a read and an enumeration. -/
theorem c7_ttl_expiry_witness :
    (((SessionCtx.mk []).set 0 "k" (.s "x") "session" (some 1) []).get 2
        "k" .null).1 = .null ∧
    alookup ((((SessionCtx.mk []).set 0 "k" (.s "x") "session" (some 1)
        []).get 2 "k" .null).2).data "k" = none ∧
    alookup (((((SessionCtx.mk []).set 0 "k" (.s "x") "session" (some 1)
        []).get 2 "k" .null).2).getAll 9 none).1 "k" = none ∧
    ((SessionCtx.mk [("p", ⟨.s "y", "session", 0, none, []⟩)]).get 5 "p"
        .null).1 = .s "y" ∧
    alookup ((((SessionCtx.mk [("p", ⟨.s "y", "session", 0, none,
        []⟩)])).getAll 5 none).2).data "p" =
      some ⟨.s "y", "session", 0, none, []⟩ := by
  have h1 := c7_ttl_expiry.1 (SessionCtx.mk []) (by simp [keysNodup])
    0 1 2 "k" (.s "x") "session" [] .null (by decide)
  have h2 := c7_ttl_expiry.2
    (SessionCtx.mk [("p", ⟨.s "y", "session", 0, none, []⟩)]) "p"
    ⟨.s "y", "session", 0, none, []⟩ rfl rfl
  exact ⟨h1.1, h1.2.1, h1.2.2 9 none, h2.1 5 .null, h2.2.2 5 none⟩

/-! ## C9 — no-transition calls and their effect on the context -/

/-- C9 counterexample: a matched `business_rules` self-loop on agent 1
whose rule also records a context update.  The call returns
`NO_TRANSITION`, but the context is not left unchanged: the rule's
update `k = "v"` has been merged into it. -/
theorem c9_context_update_counterexample :
    (checkAndExecuteTransition c9G [c9Row] c9RT [] false 0 c9St).map
        (fun p => (p.1, p.2.ctx.extra)) =
      .ok (.no_transition, [("k", Prim.s "v")]) ∧
    c9St.ctx.extra = [] ∧
    (checkAndExecuteTransition c9G [c9Row] c9RT [] false 0 c9St).map
        (fun p => p.2.ctx) ≠ .ok c9St.ctx := by
  exact ⟨rfl, rfl, by decide⟩

/-- C9 (amended): when the checked graph reports no target at all, the
call returns `NO_TRANSITION` with the state entirely untouched (so
repeating it gives the same result); when a target is reported that
equals the current agent id, the call still returns `NO_TRANSITION` and
the agent ids are untouched, but context updates merged by a matched
rules-kind transition remain in the context. -/
theorem c9_no_transition_noop :
    (∀ (g : AgentGraph) (tt : List TransitionRow)
       (rt : List (Int × List Rule)) (A : List (Int × String)) (b : Bool)
       (now : Int) (st : OrchState) (n : Int),
       st.ctx.current_agent_id = some (.prim (.i n)) → n ≠ 0 →
       brCheckTransitions g tt rt n st.ctx = .ok (none, st.ctx) →
       checkAndExecuteTransition g tt rt A b now st =
         .ok (.no_transition, st)) ∧
    (∀ (g : AgentGraph) (tt : List TransitionRow)
       (rt : List (Int × List Rule)) (A : List (Int × String)) (b : Bool)
       (now : Int) (st : OrchState) (n : Int) (ctx' : Ctx),
       st.ctx.current_agent_id = some (.prim (.i n)) → n ≠ 0 →
       brCheckTransitions g tt rt n st.ctx = .ok (some n, ctx') →
       ctx'.current_agent_id = some (.prim (.i n)) →
       checkAndExecuteTransition g tt rt A b now st =
         .ok (.no_transition, { st with ctx := ctx' })) := by
  constructor
  · intro g tt rt A b now st n hcur hn hbr
    have hfalsy : (Val.prim (Prim.i n)).falsy = false := by
      simp [Val.falsy, Prim.falsy, hn]
    simp only [checkAndExecuteTransition, checkTransition, hcur, hfalsy,
      Bool.false_eq_true, if_false, hbr]
    rfl
  · intro g tt rt A b now st n ctx' hcur hn hbr hcur'
    have hfalsy : (Val.prim (Prim.i n)).falsy = false := by
      simp [Val.falsy, Prim.falsy, hn]
    have hbeq : (Val.prim (Prim.i n) == Val.prim (Prim.i n)) = true := by
      simp
    simp only [checkAndExecuteTransition, checkTransition, hcur, hfalsy,
      Bool.false_eq_true, if_false, hbr]
    simp only [Except.map, executeTransition, hcur', hfalsy, hbeq,
      Bool.false_eq_true, if_false, if_true]

/-- C9 witness: both parts of the theorem — a graph with no matching
transition leaves the state untouched, and the concrete rules-kind
self-loop returns `NO_TRANSITION` while keeping its merged context
update. -/
theorem c9_no_transition_noop_witness :
    checkAndExecuteTransition (buildGraph [(1, "x")] []) [] [] [] false 0
        c9St = .ok (.no_transition, c9St) ∧
    checkAndExecuteTransition c9G [c9Row] c9RT [] false 0 c9St =
      .ok (.no_transition,
        { c9St with ctx := { c9St.ctx with extra := [("k", .s "v")] } }) :=
  ⟨c9_no_transition_noop.1 (buildGraph [(1, "x")] []) [] [] [] false 0
      c9St 1 rfl (by decide) rfl,
   c9_no_transition_noop.2 c9G [c9Row] c9RT [] false 0 c9St 1
      { c9St.ctx with extra := [("k", .s "v")] } rfl (by decide) rfl rfl⟩

end Rataura2
